import Mathlib

/-!
Verification of the icon-library module (`iconlib.py`): a static library
registry, a path resolver (`get_path`), a library listing
(`get_library_names`), and a bitmap producer (`get_qpixmap`) with two
recolouring routines (`_svg_to_pixmap`, `_fill_pixmap_by_alpha`).

The Python code is shallowly embedded: dicts become ordered association
lists with unique keys, `str.format` becomes a character-level recursive
function over the template, images become rectangular grids of RGBA
colours, and the filesystem, the raster loader, the SVG renderer and the
smooth resampler of the GUI toolkit become explicit function parameters.
-/

namespace IconLib

/-! ### Python dict model

A Python dict with string keys is modelled as an ordered association list
whose keys are unique; lookup returns the first (hence only) binding.
-/

/-- Dict lookup, `d.get(key)` / `d[key]`: first binding for `key`, if any. -/
def dget {α : Type} : List (String × α) → String → Option α
  | [], _ => none
  | (k, v) :: d, key => if k = key then some v else dget d key

/-- Dict store, `d[key] = v`: replace the binding in place if the key is
present, otherwise append it (Python dicts preserve insertion order). -/
def dset {α : Type} : List (String × α) → String → α → List (String × α)
  | [], key, v => [(key, v)]
  | (k, w) :: d, key, v => if k = key then (key, v) :: d else (k, w) :: dset d key v

/-- Dict update, `d.update(items)`: store each item in order, later items
winning on key collisions. -/
def dictUpdates {α : Type} (d : List (String × α)) (items : List (String × α)) :
    List (String × α) :=
  items.foldl (fun acc kv => dset acc kv.1 kv.2) d

theorem dget_dset_self {α : Type} (d : List (String × α)) (k : String) (v : α) :
    dget (dset d k v) k = some v := by
  induction d with
  | nil => simp [dget, dset]
  | cons hd tl ih =>
    by_cases h : hd.1 = k
    · simp [dget, dset, h]
    · simp [dget, dset, h, ih]

theorem dget_dset_ne {α : Type} (d : List (String × α)) (k k' : String) (v : α)
    (h : k' ≠ k) : dget (dset d k v) k' = dget d k' := by
  have h' : ¬(k = k') := fun hh => h hh.symm
  induction d with
  | nil => simp [dget, dset, h']
  | cons hd tl ih =>
    by_cases hk : hd.1 = k
    · simp [dget, dset, hk, h']
    · by_cases hk' : hd.1 = k'
      · simp [dget, dset, hk, hk', h]
      · simp [dget, dset, hk, hk', ih]

theorem dictUpdates_append {α : Type} (d : List (String × α)) (l₁ l₂ : List (String × α)) :
    dictUpdates d (l₁ ++ l₂) = dictUpdates (dictUpdates d l₁) l₂ := by
  simp [dictUpdates, List.foldl_append]

theorem dictUpdates_single {α : Type} (d : List (String × α)) (k : String) (v : α) :
    dictUpdates d [(k, v)] = dset d k v := rfl

/-- Left-biased choice on `Option`, used to state lookup priorities. -/
def dOr {α : Type} : Option α → Option α → Option α
  | some v, _ => some v
  | none, o => o

@[simp] theorem dOr_some {α : Type} (v : α) (o : Option α) : dOr (some v) o = some v := rfl

@[simp] theorem dOr_none {α : Type} (o : Option α) : dOr none o = o := rfl

/-- Lookup in an updated dict: the last matching update item wins,
falling back to the original dict. -/
theorem dget_dictUpdates {α : Type} (d : List (String × α)) (l : List (String × α))
    (k : String) :
    dget (dictUpdates d l) k = dOr (dget l.reverse k) (dget d k) := by
  induction l using List.reverseRecOn generalizing d with
  | nil => rfl
  | append_singleton l a ih =>
    rw [dictUpdates_append, dictUpdates_single]
    have hrev : (l ++ [a]).reverse = a :: l.reverse := by simp
    rw [hrev]
    by_cases h : a.1 = k
    · subst h
      rw [dget_dset_self]
      simp [dget]
    · rw [dget_dset_ne _ _ _ _ (Ne.symm h), ih]
      simp [dget, h]

/-- When the keys of `l` are unique, looking up in `l.reverse` is the same
as looking up in `l` (Python kwargs always have unique keys). -/
theorem dget_reverse_of_nodup {α : Type} (l : List (String × α)) (k : String)
    (h : (l.map Prod.fst).Nodup) : dget l.reverse k = dget l k := by
  induction l with
  | nil => rfl
  | cons hd tl ih =>
    simp only [List.map_cons, List.nodup_cons] at h
    rw [List.reverse_cons]
    by_cases hk : hd.1 = k
    · have hnot : dget tl.reverse k = none := by
        subst hk
        have : ∀ m : List (String × α), hd.1 ∉ m.map Prod.fst → dget m hd.1 = none := by
          intro m
          induction m with
          | nil => intro _; rfl
          | cons x xs ihm =>
            intro hm
            simp only [List.map_cons, List.mem_cons] at hm
            push_neg at hm
            simp [dget, Ne.symm hm.1, ihm hm.2]
        exact this _ (by simpa using h.1)
      -- appending [(k, v)] after a list where k is absent finds (k, v)
      have happ : ∀ m : List (String × α), dget m k = none →
          dget (m ++ [hd]) k = some hd.2 := by
        intro m
        induction m with
        | nil => intro _; simp [dget, hk]
        | cons x xs ihm =>
          intro hm
          simp only [dget] at hm ⊢
          by_cases hx : x.1 = k
          · simp [hx] at hm
          · simp only [hx, if_false] at hm ⊢
            exact ihm hm
      rw [happ _ hnot]
      simp [dget, hk]
    · have happ : ∀ m : List (String × α),
          dget (m ++ [hd]) k = dOr (dget m k) (dget [hd] k) := by
        intro m
        induction m with
        | nil => simp [dget]
        | cons x xs ihm =>
          by_cases hx : x.1 = k
          · simp [dget, hx]
          · simp [dget, hx, ihm]
      rw [happ, ih h.2]
      have hnone : dget [hd] k = none := by simp [dget, hk]
      rw [hnone]
      have hcons : dget (hd :: tl) k = dget tl k := by simp [dget, hk]
      rw [hcons]
      cases dget tl k <;> rfl

/-! ### Python `str.format` model

`str.format` for templates made of literal text and simple named fields
`{name}` (the only form the registry's templates use).  Scanning is
character by character; a field name is looked up in the substitution
dict, a missing key is a `KeyError`, and a stray closing brace is a
format error.
-/

/-- The `{` character (written via its code point). -/
def lbraceChar : Char := Char.ofNat 123

/-- The `}` character (written via its code point). -/
def rbraceChar : Char := Char.ofNat 125

/-- Format scanner.  The second argument is `none` while scanning literal
text and `some acc` while scanning a field name, `acc` holding the name's
characters so far. -/
def fmtAux (subs : List (String × String)) :
    List Char → Option (List Char) → Except String (List Char)
  | [], none => .ok []
  | [], some _ => .error "Single brace encountered in format string"
  | c :: cs, none =>
    if c = lbraceChar then fmtAux subs cs (some [])
    else if c = rbraceChar then .error "Single brace encountered in format string"
    else
      match fmtAux subs cs none with
      | .ok t => .ok (c :: t)
      | .error e => .error e
  | c :: cs, some acc =>
    if c = rbraceChar then
      match dget subs (String.mk acc) with
      | some v =>
        match fmtAux subs cs none with
        | .ok t => .ok (v.data ++ t)
        | .error e => .error e
      | none => .error ("KeyError: " ++ String.mk acc)
    else fmtAux subs cs (some (acc ++ [c]))

/-- `template.format(**subs)`. -/
def formatTemplate (template : String) (subs : List (String × String)) :
    Except String String :=
  match fmtAux subs template.data none with
  | .ok cs => .ok (String.mk cs)
  | .error e => .error e

/-- The field names referenced by a template, in order, following the same
scan as `fmtAux`. -/
def fieldsAux : List Char → Option (List Char) → List String
  | [], _ => []
  | c :: cs, none =>
    if c = lbraceChar then fieldsAux cs (some [])
    else fieldsAux cs none
  | c :: cs, some acc =>
    if c = rbraceChar then String.mk acc :: fieldsAux cs none
    else fieldsAux cs (some (acc ++ [c]))

/-- The placeholder names referenced by a template. -/
def templatePlaceholders (template : String) : List String :=
  fieldsAux template.data none

/-- Formatting only reads the substitution dict at the template's
placeholders: two dicts agreeing there format identically. -/
theorem fmtAux_congr (cs : List Char) (mode : Option (List Char))
    (m m' : List (String × String))
    (h : ∀ p ∈ fieldsAux cs mode, dget m p = dget m' p) :
    fmtAux m cs mode = fmtAux m' cs mode := by
  induction cs generalizing mode with
  | nil => cases mode <;> rfl
  | cons c cs ih =>
    cases mode with
    | none =>
      by_cases hl : c = lbraceChar
      · simp only [fmtAux, hl, if_true]
        exact ih _ (by simpa [fieldsAux, hl] using h)
      · by_cases hr : c = rbraceChar
        · have hne : ¬(rbraceChar = lbraceChar) := by decide
          simp [fmtAux, hl, hr, hne]
        · simp only [fmtAux, hl, hr, if_false]
          rw [ih none (by simpa [fieldsAux, hl] using h)]
    | some acc =>
      by_cases hr : c = rbraceChar
      · have hacc : dget m (String.mk acc) = dget m' (String.mk acc) :=
          h _ (by simp [fieldsAux, hr])
        simp only [fmtAux, hr, if_true, hacc]
        rw [ih none (by intro p hp; exact h p (by simp [fieldsAux, hr, hp]))]
      · simp only [fmtAux, hr, if_false]
        exact ih _ (by simpa [fieldsAux, hr] using h)

theorem formatTemplate_congr (t : String) (m m' : List (String × String))
    (h : ∀ p ∈ templatePlaceholders t, dget m p = dget m' p) :
    formatTemplate t m = formatTemplate t m' := by
  unfold formatTemplate
  rw [fmtAux_congr t.data none m m' h]

/-! ### `pathlib` suffix model

`Path.suffix`: the name is the last `/`-separated component; the suffix is
the part of the name from its last dot, provided that dot is neither the
first nor the last character of the name.
-/

/-- Split a character list at every `/`, keeping empty parts, as
`p.split("/")` does. -/
def splitSlash : List Char → List (List Char)
  | [] => [[]]
  | c :: cs =>
    let rest := splitSlash cs
    if c = '/' then [] :: rest
    else
      match rest with
      | [] => [[c]]
      | r :: rs => (c :: r) :: rs

/-- Last path component, `Path(p).name`. -/
def pyName (p : String) : String := String.mk ((splitSlash p.data).getLastD [])

/-- Index of the last `.` in a character list, `name.rfind(".")`. -/
def rfindDotIdx : List Char → Option Nat
  | [] => none
  | c :: cs =>
    match rfindDotIdx cs with
    | some i => some (i + 1)
    | none => if c = '.' then some 0 else none

/-- `Path(p).suffix`. -/
def pySuffix (p : String) : String :=
  let name := pyName p
  match rfindDotIdx name.data with
  | some i => if 0 < i ∧ i < name.data.length - 1 then String.mk (name.data.drop i) else ""
  | none => ""

/-! ### The library registry and the public operations (`iconlib.py`) -/

/-- One entry of `LIBRARIES`: a path template and default substitutions. -/
structure LibraryConfig where
  path : String
  defaults : List (String × String)
deriving DecidableEq

/-- The path template `"{icon}/{style}.{ext}"` carried by both registry
entries (braces written via code-point escapes). -/
def defaultPathTemplate : String := "\x7bicon\x7d/\x7bstyle\x7d.\x7bext\x7d"

/-- The static library registry `LIBRARIES`. -/
def LIBRARIES : List (String × LibraryConfig) :=
  [("material", ⟨defaultPathTemplate, [("style", "regular"), ("ext", "svg")]⟩),
   ("internal", ⟨defaultPathTemplate, [("style", "regular"), ("ext", "png")]⟩)]

/-- `get_library_names`: `sorted(list(LIBRARIES.keys()))`. -/
def get_library_names : List String :=
  List.insertionSort (fun a b => a ≤ b) (LIBRARIES.map Prod.fst)

/-- Python `repr` of a list of strings, as an f-string renders it. -/
def pyReprStrList (l : List String) : String :=
  "[" ++ String.intercalate ", " (l.map (fun s => "\x27" ++ s ++ "\x27")) ++ "]"

/-- The error kinds `get_path` can surface: `ValueError` for an unknown
library, `FileNotFoundError` for a missing file, and a propagated
`KeyError` from template formatting. -/
inductive IconErr where
  | valueError (msg : String)
  | fileNotFoundError (msg : String)
  | keyError (msg : String)
deriving DecidableEq

/-- The substitution dict built by `get_path`:
`defaults.copy()`, then `update({"icon": icon})`, then `update(kwargs)`. -/
def mergedSubs (cfg : LibraryConfig) (icon : String) (kwargs : List (String × String)) :
    List (String × String) :=
  dictUpdates (dictUpdates cfg.defaults [("icon", icon)]) kwargs

/-- `get_path`.  The icon-library root directory (`ICONLIB_ROOT`, which
depends on the install location) and the filesystem existence test are
passed as parameters `root` and `fs`. -/
def get_path (root : String) (fs : String → Bool) (library icon : String)
    (kwargs : List (String × String)) : Except IconErr String :=
  match dget LIBRARIES library with
  | none =>
    .error (.valueError ("Icon library " ++ library ++ " not found. Available libraries: "
      ++ pyReprStrList get_library_names))
  | some library_config =>
    match formatTemplate library_config.path (mergedSubs library_config icon kwargs) with
    | .error e => .error (.keyError e)
    | .ok relative_icon_path =>
      let icon_path := root ++ "/" ++ library ++ "/" ++ relative_icon_path
      if fs icon_path then .ok icon_path
      else .error (.fileNotFoundError ("No icon file found at: " ++ icon_path))

/-! ### Image model

A `QColor` is an RGBA quadruple of 8-bit channel values; a `QImage` /
`QPixmap` buffer is a list of rows of colours.  Out-of-range reads return
the zero colour and out-of-range writes are dropped, mirroring Qt's
bounds-checked pixel accessors.
-/

/-- An RGBA colour (`QColor`). -/
structure QColor where
  r : Nat
  g : Nat
  b : Nat
  a : Nat
deriving DecidableEq

/-- `QColor.setAlpha`: the colour object with its alpha channel replaced
(the Python call mutates in place; the mutation is threaded explicitly). -/
def QColor.setAlpha (c : QColor) (alpha : Nat) : QColor := ⟨c.r, c.g, c.b, alpha⟩

/-- `Qt.GlobalColor.white`. -/
def white : QColor := ⟨255, 255, 255, 255⟩

/-- An in-memory raster buffer: rows of colours. -/
abbrev Image := List (List QColor)

/-- Number of rows, `image.height()`. -/
def imgH (img : Image) : Nat := img.length

/-- Number of columns, `image.width()` (length of the first row; all rows
of a well-formed buffer have this length). -/
def imgW (img : Image) : Nat := (img.headD []).length

/-- Length of row `y`. -/
def rowLen (img : Image) (y : Nat) : Nat := (img[y]?.getD []).length

/-- `image.pixelColor(x, y)`. -/
def pixelColor (img : Image) (x y : Nat) : QColor :=
  ((img[y]?.getD [])[x]?.getD ⟨0, 0, 0, 0⟩)

/-- `image.setPixelColor(x, y, c)`. -/
def setPixelColor (img : Image) (x y : Nat) (c : QColor) : Image :=
  img.set y ((img[y]?.getD []).set x c)

/-- One iteration of the recolouring loop of `_fill_pixmap_by_alpha`:
read the pixel, and if it is non-transparent, set the fill colour's alpha
to the pixel's alpha and write the fill colour back to the pixel. -/
def fillStep (st : Image × QColor) (q : Nat × Nat) : Image × QColor :=
  let image := st.1
  let fill_color := st.2
  let pixel := pixelColor image q.1 q.2
  if 0 < pixel.a then
    let fill_color := fill_color.setAlpha pixel.a
    (setPixelColor image q.1 q.2 fill_color, fill_color)
  else
    (image, fill_color)

/-- The coordinates visited by `for y in range(height): for x in range(width)`,
in visit order (row-major: y outer, x inner). -/
def coordsRowMajor (w h : Nat) : List (Nat × Nat) :=
  (List.range h).flatMap (fun y => (List.range w).map (fun x => (x, y)))

/-- `_fill_pixmap_by_alpha`: walk every pixel in row-major order, running
`fillStep` on the image and the (mutable) fill colour.  Returns the new
image together with the final state of the caller's colour object. -/
def fill_pixmap_by_alpha (pixmap : Image) (fill_color : QColor) : Image × QColor :=
  (coordsRowMajor (imgW pixmap) (imgH pixmap)).foldl fillStep (pixmap, fill_color)

/-- The pixels of an image in row-major visit order. -/
def rowMajorPixels (img : Image) : List QColor :=
  (coordsRowMajor (imgW img) (imgH img)).map (fun q => pixelColor img q.1 q.2)

/-- Porter-Duff `CompositionMode_SourceIn`: the source colour's channels,
with the alpha scaled by the destination's alpha. -/
def sourceIn (src dst : QColor) : QColor :=
  ⟨src.r, src.g, src.b, src.a * dst.a / 255⟩

/-- A `w × h` grid of pixels given by a pixel function. -/
def mkGrid (w h : Nat) (f : Nat → Nat → QColor) : Image :=
  (List.range h).map (fun y => (List.range w).map (fun x => f x y))

/-- `_svg_to_pixmap`: a transparent `width × height` buffer is created and
the SVG is rendered into it; the content of the painted buffer is
abstracted as the pixel function `renderPixel filepath width height`
(the rendering itself is done by the external Qt toolkit).  The buffer is
then recoloured with a `fillRect` in `CompositionMode_SourceIn` mode,
which keeps only the painted alpha and substitutes the fill colour. -/
def svg_to_pixmap (renderPixel : String → Nat → Nat → Nat → Nat → QColor)
    (filepath : String) (width height : Nat) (color : QColor) : Image :=
  let rendered := mkGrid width height (fun x y => renderPixel filepath width height x y)
  rendered.map (fun row => row.map (fun dst => sourceIn color dst))

/-- `QSize.scaled(tw, th, KeepAspectRatio)`: the largest size fitting in
`tw × th` with the same aspect as `w × h` (Qt's integer arithmetic). -/
def aspectFitSize (w h tw th : Nat) : Nat × Nat :=
  let rw := th * w / h
  if rw ≤ tw then (rw, th) else (tw, tw * h / w)

/-- `pixmap.scaled(tw, th, KeepAspectRatio, SmoothTransformation)`: a null
pixmap scales to itself; a pixmap already at the target size is returned
unchanged; otherwise the external smooth resampler produces the result. -/
def scaled (resample : Image → Nat → Nat → Image) (img : Image) (tw th : Nat) : Image :=
  let w := imgW img
  let h := imgH img
  if w = 0 ∨ h = 0 then img
  else
    let s := aspectFitSize w h tw th
    if s.1 = w ∧ s.2 = h then img else resample img s.1 s.2

/-- The pixmap `get_qpixmap` builds from a resolved path, before scaling:
the SVG branch renders and recolours (white when no colour is given); the
raster branch loads the file (via the external loader `loadPixmap`) and
recolours only when a colour is given. -/
def qpixmapFromPath (renderPixel : String → Nat → Nat → Nat → Nat → QColor)
    (loadPixmap : String → Image) (icon_path : String) (width height : Nat)
    (colour : Option QColor) : Image :=
  if pySuffix icon_path = ".svg" then
    let c := colour.getD white
    svg_to_pixmap renderPixel icon_path width height c
  else
    let pixmap := loadPixmap icon_path
    match colour with
    | some c => (fill_pixmap_by_alpha pixmap c).1
    | none => pixmap

/-- `get_qpixmap`: resolve the path, build the pixmap, and scale it to the
requested size keeping the aspect ratio. -/
def get_qpixmap (renderPixel : String → Nat → Nat → Nat → Nat → QColor)
    (loadPixmap : String → Image) (resample : Image → Nat → Nat → Image)
    (root : String) (fs : String → Bool) (library icon : String)
    (width height : Nat) (colour : Option QColor)
    (kwargs : List (String × String)) : Except IconErr Image :=
  match get_path root fs library icon kwargs with
  | .error e => .error e
  | .ok icon_path =>
    .ok (scaled resample (qpixmapFromPath renderPixel loadPixmap icon_path width height colour)
      width height)

/-! ### Heap model of the dict operations in `get_path`

To settle that the registry is never mutated, the dicts live in an explicit
heap of dict references and `get_path` is re-traced with each Python dict
operation acting on the heap: `defaults.copy()` allocates a fresh
reference, and both `update` calls write through that fresh reference
only.
-/

/-- A heap of Python dicts, addressed by allocation index. -/
abbrev DictHeap := List (List (String × String))

/-- Read the dict at reference `r`. -/
def heapGet (h : DictHeap) (r : Nat) : List (String × String) := h[r]?.getD []

/-- Overwrite the dict at reference `r`. -/
def heapSet (h : DictHeap) (r : Nat) (d : List (String × String)) : DictHeap := h.set r d

/-- Allocate a fresh dict, returning the new heap and its reference. -/
def heapAlloc (h : DictHeap) (d : List (String × String)) : DictHeap × Nat :=
  (h ++ [d], h.length)

/-- A registry entry whose defaults dict lives in the heap. -/
structure LibraryConfigRef where
  path : String
  defaultsRef : Nat
deriving DecidableEq

/-- The initial heap holding the two registry defaults dicts. -/
def registryHeap : DictHeap :=
  [[("style", "regular"), ("ext", "svg")], [("style", "regular"), ("ext", "png")]]

/-- The registry with its defaults dicts as heap references 0 and 1. -/
def LIBRARIES_refs : List (String × LibraryConfigRef) :=
  [("material", ⟨defaultPathTemplate, 0⟩), ("internal", ⟨defaultPathTemplate, 1⟩)]

/-- `get_path` re-traced over the dict heap: look up the library, copy its
defaults dict into a fresh reference, update that reference with the icon
binding and then the caller overrides, format, and check existence.  The
final heap is returned alongside the result. -/
def get_pathH (h : DictHeap) (root : String) (fs : String → Bool) (library icon : String)
    (kwargs : List (String × String)) : Except IconErr String × DictHeap :=
  match dget LIBRARIES_refs library with
  | none =>
    (.error (.valueError ("Icon library " ++ library ++ " not found. Available libraries: "
      ++ pyReprStrList get_library_names)), h)
  | some library_config =>
    let copied := heapAlloc h (heapGet h library_config.defaultsRef)
    let h1 := copied.1
    let subsRef := copied.2
    let h2 := heapSet h1 subsRef (dictUpdates (heapGet h1 subsRef) [("icon", icon)])
    let h3 := heapSet h2 subsRef (dictUpdates (heapGet h2 subsRef) kwargs)
    match formatTemplate library_config.path (heapGet h3 subsRef) with
    | .error e => (.error (.keyError e), h3)
    | .ok relative_icon_path =>
      let icon_path := root ++ "/" ++ library ++ "/" ++ relative_icon_path
      if fs icon_path then (.ok icon_path, h3)
      else (.error (.fileNotFoundError ("No icon file found at: " ++ icon_path)), h3)

/-- `get_library_names` touches no dict: the heap passes through. -/
def get_library_namesH (h : DictHeap) : List String × DictHeap :=
  (get_library_names, h)

/-- `get_qpixmap` re-traced over the dict heap: only its `get_path` call
involves dict operations; the image pipeline is heap-free. -/
def get_qpixmapH (renderPixel : String → Nat → Nat → Nat → Nat → QColor)
    (loadPixmap : String → Image) (resample : Image → Nat → Nat → Image)
    (h : DictHeap) (root : String) (fs : String → Bool) (library icon : String)
    (width height : Nat) (colour : Option QColor)
    (kwargs : List (String × String)) : Except IconErr Image × DictHeap :=
  match get_pathH h root fs library icon kwargs with
  | (.error e, h') => (.error e, h')
  | (.ok icon_path, h') =>
    (.ok (scaled resample (qpixmapFromPath renderPixel loadPixmap icon_path width height colour)
      width height), h')

/-! ### Lemmas about the registry template and the merged substitutions -/

theorem string_assemble (i s e : String) :
    String.mk (i.data ++ '/' :: (s.data ++ '.' :: e.data)) = i ++ "/" ++ s ++ "." ++ e := by
  show String.mk _ = String.mk ((((i.data ++ ['/']) ++ s.data) ++ ['.']) ++ e.data)
  apply congrArg
  simp

/-- Formatting the registry's template with a dict binding all three
placeholders yields `icon/style.ext`. -/
theorem formatTemplate_default_eval (m : List (String × String)) (i s e : String)
    (hi : dget m "icon" = some i) (hs : dget m "style" = some s) (he : dget m "ext" = some e) :
    formatTemplate defaultPathTemplate m = .ok (i ++ "/" ++ s ++ "." ++ e) := by
  have hdata : defaultPathTemplate.data =
      [lbraceChar, 'i', 'c', 'o', 'n', rbraceChar, '/',
       lbraceChar, 's', 't', 'y', 'l', 'e', rbraceChar, '.',
       lbraceChar, 'e', 'x', 't', rbraceChar] := by decide
  unfold formatTemplate
  rw [hdata]
  simp +decide [fmtAux, hi, hs, he, string_assemble]

/-- A successful formatting of the registry's template determines the
shape of the result: the three placeholders were bound and the relative
path is `icon/style.ext`. -/
theorem formatTemplate_default_inv (m : List (String × String)) (rel : String)
    (h : formatTemplate defaultPathTemplate m = .ok rel) :
    ∃ i s e, dget m "icon" = some i ∧ dget m "style" = some s ∧ dget m "ext" = some e ∧
      rel = i ++ "/" ++ s ++ "." ++ e := by
  have hdata : defaultPathTemplate.data =
      [lbraceChar, 'i', 'c', 'o', 'n', rbraceChar, '/',
       lbraceChar, 's', 't', 'y', 'l', 'e', rbraceChar, '.',
       lbraceChar, 'e', 'x', 't', rbraceChar] := by decide
  unfold formatTemplate at h
  rw [hdata] at h
  cases hi : dget m "icon" with
  | none => simp +decide [fmtAux, hi] at h
  | some i =>
    cases hs : dget m "style" with
    | none => simp +decide [fmtAux, hi, hs] at h
    | some s =>
      cases he : dget m "ext" with
      | none => simp +decide [fmtAux, hi, hs, he] at h
      | some e =>
        refine ⟨i, s, e, rfl, rfl, rfl, ?_⟩
        simp +decide [fmtAux, hi, hs, he] at h
        rw [← h, string_assemble]

/-- Lookup in the substitution dict built by `get_path`: a caller override
wins, then the icon binding, then the library defaults. -/
theorem dget_mergedSubs (cfg : LibraryConfig) (icon : String)
    (kwargs : List (String × String)) (hnd : (kwargs.map Prod.fst).Nodup) (k : String) :
    dget (mergedSubs cfg icon kwargs) k =
      dOr (dget kwargs k) (if k = "icon" then some icon else dget cfg.defaults k) := by
  unfold mergedSubs
  rw [dget_dictUpdates, dget_reverse_of_nodup _ _ hnd]
  congr 1
  rw [dictUpdates_single]
  by_cases hk : k = "icon"
  · subst hk
    rw [dget_dset_self]
    simp
  · rw [dget_dset_ne _ _ _ _ hk]
    simp [hk]

/-- A registered library's config is one of the two registry entries; in
particular its template is `defaultPathTemplate`. -/
theorem dget_LIBRARIES_inv (lib : String) (cfg : LibraryConfig)
    (h : dget LIBRARIES lib = some cfg) :
    cfg = ⟨defaultPathTemplate, [("style", "regular"), ("ext", "svg")]⟩ ∨
    cfg = ⟨defaultPathTemplate, [("style", "regular"), ("ext", "png")]⟩ := by
  simp only [LIBRARIES, dget] at h
  by_cases h1 : ("material" : String) = lib
  · simp only [h1, if_true] at h
    exact Or.inl (Option.some_injective _ h).symm
  · simp only [h1, if_false] at h
    by_cases h2 : ("internal" : String) = lib
    · simp only [h2, if_true] at h
      exact Or.inr (Option.some_injective _ h).symm
    · simp [h2] at h

/-- A string ends with the given suffix. -/
def strEndsWith (s suf : String) : Prop := ∃ pre, s = pre ++ suf

/-! ### Claims about path resolution -/

/-- Claim C5: `get_library_names` returns exactly the keys of the static
registry, as a duplicate-free list sorted in ascending order. -/
theorem library_names_sorted_keys :
    get_library_names.Sorted (fun a b : String => a ≤ b) ∧ get_library_names.Nodup ∧
      ∀ s : String, (s ∈ get_library_names ↔ s ∈ LIBRARIES.map Prod.fst) := by
  have hne : ¬ (("material" : String) ≤ "internal") := by
    rw [String.le_iff_toList_le]
    decide
  have hval : get_library_names = ["internal", "material"] := by
    simp [get_library_names, LIBRARIES, List.insertionSort, List.orderedInsert, hne]
  have hkeys : LIBRARIES.map Prod.fst = ["material", "internal"] := by
    simp [LIBRARIES]
  refine ⟨?_, ?_, ?_⟩
  · rw [hval]
    simp [List.sorted_cons, String.le_iff_toList_le]
    decide
  · rw [hval]
    decide
  · intro s
    rw [hval, hkeys]
    simp [or_comm]

/-- Claim C3: resolving an unregistered library name fails with a
`ValueError` whose message ends with the Python repr of the sorted list of
valid library names, and `get_qpixmap` fails identically. -/
theorem get_path_unknown_library_valueerror (root : String) (fs : String → Bool)
    (library icon : String) (kwargs : List (String × String))
    (renderPixel : String → Nat → Nat → Nat → Nat → QColor) (loadPixmap : String → Image)
    (resample : Image → Nat → Nat → Image) (width height : Nat) (colour : Option QColor)
    (h : dget LIBRARIES library = none) :
    get_path root fs library icon kwargs =
      .error (.valueError ("Icon library " ++ library ++ " not found. Available libraries: "
        ++ pyReprStrList get_library_names)) ∧
    get_qpixmap renderPixel loadPixmap resample root fs library icon width height colour kwargs =
      .error (.valueError ("Icon library " ++ library ++ " not found. Available libraries: "
        ++ pyReprStrList get_library_names)) ∧
    strEndsWith ("Icon library " ++ library ++ " not found. Available libraries: "
        ++ pyReprStrList get_library_names) (pyReprStrList get_library_names) := by
  have hp : get_path root fs library icon kwargs =
      .error (.valueError ("Icon library " ++ library ++ " not found. Available libraries: "
        ++ pyReprStrList get_library_names)) := by
    simp only [get_path, h]
  refine ⟨hp, ?_, ?_⟩
  · simp only [get_qpixmap, hp]
  · exact ⟨"Icon library " ++ library ++ " not found. Available libraries: ", rfl⟩

/-- Claim C4: for a registered library whose template formatting succeeds,
`get_path` returns the joined path exactly when it exists on disk and
raises `FileNotFoundError` exactly when it does not. -/
theorem get_path_file_not_found_iff (root : String) (fs : String → Bool)
    (library icon : String) (kwargs : List (String × String)) (cfg : LibraryConfig)
    (rel : String) (hlib : dget LIBRARIES library = some cfg)
    (hfmt : formatTemplate cfg.path (mergedSubs cfg icon kwargs) = .ok rel) :
    (get_path root fs library icon kwargs =
      if fs (root ++ "/" ++ library ++ "/" ++ rel) then
        .ok (root ++ "/" ++ library ++ "/" ++ rel)
      else
        .error (.fileNotFoundError ("No icon file found at: "
          ++ (root ++ "/" ++ library ++ "/" ++ rel)))) ∧
    (get_path root fs library icon kwargs =
        .error (.fileNotFoundError ("No icon file found at: "
          ++ (root ++ "/" ++ library ++ "/" ++ rel)))
      ↔ fs (root ++ "/" ++ library ++ "/" ++ rel) = false) := by
  have hmain : get_path root fs library icon kwargs =
      if fs (root ++ "/" ++ library ++ "/" ++ rel) then
        .ok (root ++ "/" ++ library ++ "/" ++ rel)
      else
        .error (.fileNotFoundError ("No icon file found at: "
          ++ (root ++ "/" ++ library ++ "/" ++ rel))) := by
    simp only [get_path, hlib, hfmt]
  refine ⟨hmain, ?_⟩
  cases hfs : fs (root ++ "/" ++ library ++ "/" ++ rel) <;> simp [hmain, hfs]

/-- Claim C2: for a registered library, `get_path` formats the library's
template with the defaults overlaid by the icon binding and then the
caller overrides (later wins), and joins the result under the library's
root directory. -/
theorem get_path_merge_format_join (root : String) (fs : String → Bool)
    (library icon : String) (kwargs : List (String × String)) (cfg : LibraryConfig)
    (hlib : dget LIBRARIES library = some cfg) (hnd : (kwargs.map Prod.fst).Nodup) :
    (∀ k, dget (mergedSubs cfg icon kwargs) k =
      dOr (dget kwargs k) (if k = "icon" then some icon else dget cfg.defaults k)) ∧
    (get_path root fs library icon kwargs =
      match formatTemplate cfg.path (mergedSubs cfg icon kwargs) with
      | .error e => .error (.keyError e)
      | .ok rel =>
        if fs (root ++ "/" ++ library ++ "/" ++ rel) then
          .ok (root ++ "/" ++ library ++ "/" ++ rel)
        else
          .error (.fileNotFoundError ("No icon file found at: "
            ++ (root ++ "/" ++ library ++ "/" ++ rel)))) := by
  refine ⟨fun k => dget_mergedSubs cfg icon kwargs hnd k, ?_⟩
  simp only [get_path, hlib]

/-- Claim C10: an extra caller override whose key the library's template
never references does not change the resolved path. -/
theorem get_path_ignores_unused_overrides (root : String) (fs : String → Bool)
    (library icon : String) (kwargs : List (String × String)) (k : String) (v : String)
    (cfg : LibraryConfig) (hlib : dget LIBRARIES library = some cfg)
    (hk : k ∉ templatePlaceholders cfg.path) :
    get_path root fs library icon (kwargs ++ [(k, v)]) = get_path root fs library icon kwargs := by
  have hfmt : formatTemplate cfg.path (mergedSubs cfg icon (kwargs ++ [(k, v)])) =
      formatTemplate cfg.path (mergedSubs cfg icon kwargs) := by
    have hsubs : mergedSubs cfg icon (kwargs ++ [(k, v)]) =
        dset (mergedSubs cfg icon kwargs) k v := by
      unfold mergedSubs
      rw [dictUpdates_append, dictUpdates_single]
    rw [hsubs]
    apply formatTemplate_congr
    intro p hp
    have hpk : p ≠ k := fun hh => hk (hh ▸ hp)
    exact dget_dset_ne _ _ _ _ hpk
  simp only [get_path, hlib, hfmt]

/-- Claim C6: a successfully resolved path ends in a dot followed by the
library's default extension, or by the overriding extension when the
caller supplies an `ext` override. -/
theorem get_path_extension (root : String) (fs : String → Bool)
    (library icon : String) (kwargs : List (String × String)) (cfg : LibraryConfig)
    (p dext : String) (hlib : dget LIBRARIES library = some cfg)
    (hdext : dget cfg.defaults "ext" = some dext)
    (hnd : (kwargs.map Prod.fst).Nodup)
    (hok : get_path root fs library icon kwargs = .ok p) :
    strEndsWith p ("." ++ (dget kwargs "ext").getD dext) := by
  have htmpl : cfg.path = defaultPathTemplate := by
    rcases dget_LIBRARIES_inv library cfg hlib with h | h <;> rw [h]
  cases hfmt : formatTemplate cfg.path (mergedSubs cfg icon kwargs) with
  | error e0 =>
    have hbad : get_path root fs library icon kwargs = .error (.keyError e0) := by
      simp only [get_path, hlib, hfmt]
    rw [hbad] at hok
    exact absurd hok (by simp)
  | ok rel =>
    have heval : get_path root fs library icon kwargs =
        if fs (root ++ "/" ++ library ++ "/" ++ rel) then
          .ok (root ++ "/" ++ library ++ "/" ++ rel)
        else
          .error (.fileNotFoundError ("No icon file found at: "
            ++ (root ++ "/" ++ library ++ "/" ++ rel))) := by
      simp only [get_path, hlib, hfmt]
    rw [heval] at hok
    rw [htmpl] at hfmt
    obtain ⟨i, s, e, hi, hs, he, hrel⟩ := formatTemplate_default_inv _ _ hfmt
    have hext : dget (mergedSubs cfg icon kwargs) "ext" =
        dOr (dget kwargs "ext") (some dext) := by
      rw [dget_mergedSubs cfg icon kwargs hnd "ext"]
      simp +decide [hdext]
    have he' : e = (dget kwargs "ext").getD dext := by
      rw [hext] at he
      cases hkw : dget kwargs "ext" with
      | none =>
        rw [hkw] at he
        simp only [dOr_none, Option.some.injEq] at he
        simpa using he.symm
      | some ov =>
        rw [hkw] at he
        simp only [dOr_some, Option.some.injEq] at he
        simpa using he.symm
    have hp : p = root ++ "/" ++ library ++ "/" ++ rel := by
      by_cases hfs : fs (root ++ "/" ++ library ++ "/" ++ rel) = true
      · rw [if_pos hfs] at hok
        injection hok with hh
        exact hh.symm
      · rw [if_neg hfs] at hok
        simp at hok
    refine ⟨root ++ "/" ++ library ++ "/" ++ (i ++ "/" ++ s), ?_⟩
    rw [hp, hrel, ← he']
    simp [String.append_assoc]

/-! ### Lemmas about the recolouring loop -/

theorem pixelColor_set_ne (img : Image) (x y x' y' : Nat) (c : QColor)
    (h : ¬(x = x' ∧ y = y')) :
    pixelColor (setPixelColor img x y c) x' y' = pixelColor img x' y' := by
  unfold pixelColor setPixelColor
  by_cases hy : y = y'
  · subst hy
    have hx : x ≠ x' := fun hh => h ⟨hh, rfl⟩
    by_cases hylen : y < img.length
    · rw [List.getElem?_set_eq_of_lt _ hylen]
      simp only [Option.getD_some]
      rw [List.getElem?_set_ne hx]
    · rw [List.set_eq_of_length_le (Nat.le_of_not_lt hylen)]
  · rw [List.getElem?_set_ne hy]

theorem pixelColor_set_self (img : Image) (x y : Nat) (c : QColor)
    (hy : y < img.length) (hx : x < rowLen img y) :
    pixelColor (setPixelColor img x y c) x y = c := by
  unfold pixelColor setPixelColor
  rw [List.getElem?_set_eq_of_lt _ hy]
  simp only [Option.getD_some]
  rw [List.getElem?_set_eq_of_lt _ hx]
  rfl

theorem length_fillStep (st : Image × QColor) (q : Nat × Nat) :
    (fillStep st q).1.length = st.1.length := by
  unfold fillStep setPixelColor
  by_cases hp : 0 < (pixelColor st.1 q.1 q.2).a
  · simp [hp]
  · simp [hp]

theorem rowLen_fillStep (st : Image × QColor) (q : Nat × Nat) (i : Nat) :
    rowLen (fillStep st q).1 i = rowLen st.1 i := by
  unfold fillStep setPixelColor rowLen
  by_cases hp : 0 < (pixelColor st.1 q.1 q.2).a
  · simp only [hp, if_true]
    by_cases hi : q.2 = i
    · subst hi
      by_cases hlen : q.2 < st.1.length
      · rw [List.getElem?_set_eq_of_lt _ hlen]
        simp
      · rw [List.set_eq_of_length_le (Nat.le_of_not_lt hlen)]
    · rw [List.getElem?_set_ne hi]
  · simp [hp]

theorem rgb_fillStep (st : Image × QColor) (q : Nat × Nat) :
    (fillStep st q).2.r = st.2.r ∧ (fillStep st q).2.g = st.2.g ∧ (fillStep st q).2.b = st.2.b := by
  unfold fillStep QColor.setAlpha
  by_cases hp : 0 < (pixelColor st.1 q.1 q.2).a
  · simp [hp]
  · simp [hp]

theorem pixel_fillStep_ne (st : Image × QColor) (a p : Nat × Nat)
    (h : ¬(a.1 = p.1 ∧ a.2 = p.2)) :
    pixelColor (fillStep st a).1 p.1 p.2 = pixelColor st.1 p.1 p.2 := by
  unfold fillStep
  by_cases hp : 0 < (pixelColor st.1 a.1 a.2).a
  · simp only [hp, if_true]
    exact pixelColor_set_ne _ _ _ _ _ _ h
  · simp [hp]

theorem pixel_fillStep_self (st : Image × QColor) (a : Nat × Nat)
    (hy : a.2 < st.1.length) (hx : a.1 < rowLen st.1 a.2) :
    pixelColor (fillStep st a).1 a.1 a.2 =
      (if 0 < (pixelColor st.1 a.1 a.2).a then
        QColor.setAlpha st.2 (pixelColor st.1 a.1 a.2).a
      else pixelColor st.1 a.1 a.2) := by
  unfold fillStep
  by_cases hp : 0 < (pixelColor st.1 a.1 a.2).a
  · simp only [hp, if_true]
    exact pixelColor_set_self _ _ _ _ hy hx
  · simp [hp]

theorem snd_fillStep (st : Image × QColor) (a : Nat × Nat) :
    (fillStep st a).2 =
      (if 0 < (pixelColor st.1 a.1 a.2).a then
        QColor.setAlpha st.2 (pixelColor st.1 a.1 a.2).a
      else st.2) := by
  unfold fillStep
  by_cases hp : 0 < (pixelColor st.1 a.1 a.2).a
  · simp [hp]
  · simp [hp]

theorem fold_length (L : List (Nat × Nat)) (st : Image × QColor) :
    (L.foldl fillStep st).1.length = st.1.length := by
  induction L generalizing st with
  | nil => rfl
  | cons a L ih => rw [List.foldl_cons, ih, length_fillStep]

theorem fold_rowLen (L : List (Nat × Nat)) (st : Image × QColor) (i : Nat) :
    rowLen (L.foldl fillStep st).1 i = rowLen st.1 i := by
  induction L generalizing st with
  | nil => rfl
  | cons a L ih => rw [List.foldl_cons, ih, rowLen_fillStep]

theorem fold_pixel_not_mem (L : List (Nat × Nat)) (st : Image × QColor) (q : Nat × Nat)
    (h : q ∉ L) :
    pixelColor (L.foldl fillStep st).1 q.1 q.2 = pixelColor st.1 q.1 q.2 := by
  induction L generalizing st with
  | nil => rfl
  | cons a L ih =>
    rw [List.foldl_cons, ih _ (fun hh => h (List.mem_cons_of_mem a hh))]
    have hne : a ≠ q := fun hh => h (hh ▸ List.mem_cons_self a L)
    exact pixel_fillStep_ne st a q (fun hh => hne (Prod.ext hh.1 hh.2))

/-- The image after running the recolouring fold, at a visited coordinate:
the fill colour's channels with the pixel's original alpha when that alpha
was positive, the untouched pixel otherwise. -/
theorem fold_pixel_mem (L : List (Nat × Nat)) (img img0 : Image) (fc c0 : QColor)
    (hnd : L.Nodup)
    (hagree : ∀ p ∈ L, pixelColor img p.1 p.2 = pixelColor img0 p.1 p.2)
    (hbounds : ∀ p ∈ L, p.2 < img.length ∧ p.1 < rowLen img p.2)
    (hr : fc.r = c0.r) (hg : fc.g = c0.g) (hb : fc.b = c0.b) :
    ∀ q ∈ L, pixelColor (L.foldl fillStep (img, fc)).1 q.1 q.2 =
      (if 0 < (pixelColor img0 q.1 q.2).a then
        ⟨c0.r, c0.g, c0.b, (pixelColor img0 q.1 q.2).a⟩
      else pixelColor img0 q.1 q.2) := by
  induction L generalizing img fc with
  | nil => intro q hq; simp at hq
  | cons a L ih =>
    intro q hq
    have hand : a ∉ L ∧ L.Nodup := List.nodup_cons.mp hnd
    have ha0 : pixelColor img a.1 a.2 = pixelColor img0 a.1 a.2 :=
      hagree a (List.mem_cons_self a L)
    have habnd := hbounds a (List.mem_cons_self a L)
    rw [List.foldl_cons]
    rcases List.mem_cons.mp hq with hqa | hqL
    · subst hqa
      rw [fold_pixel_not_mem L _ q hand.1]
      rw [pixel_fillStep_self (img, fc) q habnd.1 habnd.2]
      by_cases hp : 0 < (pixelColor img q.1 q.2).a
      · rw [if_pos hp]
        rw [ha0] at hp
        rw [if_pos hp]
        unfold QColor.setAlpha
        rw [hr, hg, hb, ha0]
      · rw [if_neg hp]
        rw [ha0] at hp
        rw [if_neg hp]
        exact ha0
    · refine ih (fillStep (img, fc) a).1 (fillStep (img, fc) a).2 hand.2 ?_ ?_ ?_ ?_ ?_ q hqL
      · intro p hp
        have hpa : ¬(a.1 = p.1 ∧ a.2 = p.2) := by
          intro hh
          exact hand.1 ((Prod.ext hh.1 hh.2) ▸ hp)
        rw [pixel_fillStep_ne (img, fc) a p hpa]
        exact hagree p (List.mem_cons_of_mem a hp)
      · intro p hp
        rw [length_fillStep, rowLen_fillStep]
        exact hbounds p (List.mem_cons_of_mem a hp)
      · rw [(rgb_fillStep (img, fc) a).1]; exact hr
      · rw [(rgb_fillStep (img, fc) a).2.1]; exact hg
      · rw [(rgb_fillStep (img, fc) a).2.2]; exact hb

/-! ### Claims about the raster recolouring -/

theorem mem_coordsRowMajor (w h : Nat) (q : Nat × Nat) :
    q ∈ coordsRowMajor w h ↔ q.1 < w ∧ q.2 < h := by
  cases q with
  | mk a b =>
    simp only [coordsRowMajor, List.mem_flatMap, List.mem_map, List.mem_range, Prod.mk.injEq]
    constructor
    · rintro ⟨y, hy, x, hx, hxa, hyb⟩
      exact ⟨hxa ▸ hx, hyb ▸ hy⟩
    · rintro ⟨ha, hb⟩
      exact ⟨b, hb, a, ha, rfl, rfl⟩

theorem nodup_coordsRowMajor (w h : Nat) : (coordsRowMajor w h).Nodup := by
  unfold coordsRowMajor
  rw [List.nodup_flatMap]
  constructor
  · intro y _
    exact (List.nodup_range w).map (fun a b hab => by injection hab)
  · apply List.Pairwise.imp ?_ (List.nodup_range h)
    intro y y' hyy'
    intro p hp hp'
    simp only [Function.onFun, List.mem_map, List.mem_range] at hp hp'
    obtain ⟨x, _, hx⟩ := hp
    obtain ⟨x', _, hx'⟩ := hp'
    apply hyy'
    rw [← hx] at hx'
    injection hx' with h1 h2
    exact h2.symm

/-- All rows of a rectangular image have the width of the first row. -/
theorem rowLen_eq_imgW (img : Image) (y : Nat)
    (hrect : ∀ row ∈ img, row.length = imgW img) (hy : y < img.length) :
    rowLen img y = imgW img := by
  unfold rowLen
  rw [List.getElem?_eq_getElem hy]
  exact hrect _ (List.getElem_mem hy)

/-- Claim C1: after the recolouring loop of `_fill_pixmap_by_alpha`, a
pixel whose original alpha was zero is untouched (alpha still zero,
colour channels unchanged), and a pixel whose original alpha was positive
carries the requested colour's RGB channels with exactly its own original
alpha. -/
theorem fill_recolours_by_alpha (img : Image) (c : QColor) (x y : Nat)
    (hrect : ∀ row ∈ img, row.length = imgW img)
    (hx : x < imgW img) (hy : y < imgH img) :
    pixelColor (fill_pixmap_by_alpha img c).1 x y =
      (if 0 < (pixelColor img x y).a then
        ⟨c.r, c.g, c.b, (pixelColor img x y).a⟩
      else pixelColor img x y) := by
  unfold fill_pixmap_by_alpha
  refine fold_pixel_mem (coordsRowMajor (imgW img) (imgH img)) img img c c
    (nodup_coordsRowMajor _ _) (fun p _ => rfl) ?_ rfl rfl rfl (x, y) ?_
  · intro p hp
    have hb := (mem_coordsRowMajor _ _ p).mp hp
    have hylen : p.2 < img.length := hb.2
    refine ⟨hylen, ?_⟩
    rw [rowLen_eq_imgW img p.2 hrect hylen]
    exact hb.1
  · exact (mem_coordsRowMajor _ _ (x, y)).mpr ⟨hx, hy⟩

/-- Claim C1 witness at a concrete 1 × 2 image. -/
theorem fill_recolours_by_alpha_witness :
    (∀ row ∈ ([[⟨1, 2, 3, 0⟩, ⟨4, 5, 6, 7⟩]] : Image),
      row.length = imgW [[⟨1, 2, 3, 0⟩, ⟨4, 5, 6, 7⟩]]) ∧
    1 < imgW ([[⟨1, 2, 3, 0⟩, ⟨4, 5, 6, 7⟩]] : Image) ∧
    0 < imgH ([[⟨1, 2, 3, 0⟩, ⟨4, 5, 6, 7⟩]] : Image) ∧
    pixelColor (fill_pixmap_by_alpha [[⟨1, 2, 3, 0⟩, ⟨4, 5, 6, 7⟩]] ⟨9, 8, 7, 255⟩).1 1 0 =
      ⟨9, 8, 7, 7⟩ ∧
    pixelColor (fill_pixmap_by_alpha [[⟨1, 2, 3, 0⟩, ⟨4, 5, 6, 7⟩]] ⟨9, 8, 7, 255⟩).1 0 0 =
      ⟨1, 2, 3, 0⟩ := by
  refine ⟨by decide, by decide, by decide, ?_, ?_⟩
  · rw [fill_recolours_by_alpha [[⟨1, 2, 3, 0⟩, ⟨4, 5, 6, 7⟩]] ⟨9, 8, 7, 255⟩ 1 0
      (by decide) (by decide) (by decide)]
    decide
  · rw [fill_recolours_by_alpha [[⟨1, 2, 3, 0⟩, ⟨4, 5, 6, 7⟩]] ⟨9, 8, 7, 255⟩ 0 0
      (by decide) (by decide) (by decide)]
    decide

/-- One step of the fill colour's evolution, over original pixel values. -/
def alphaFoldStep (acc : QColor) (p : QColor) : QColor :=
  if 0 < p.a then acc.setAlpha p.a else acc

/-- The fill colour after the fold equals a pure fold of `alphaFoldStep`
over the original pixel values in visit order. -/
theorem fold_snd_pixels (L : List (Nat × Nat)) (img img0 : Image) (fc : QColor)
    (hnd : L.Nodup)
    (hagree : ∀ p ∈ L, pixelColor img p.1 p.2 = pixelColor img0 p.1 p.2) :
    (L.foldl fillStep (img, fc)).2 =
      (L.map (fun q => pixelColor img0 q.1 q.2)).foldl alphaFoldStep fc := by
  induction L generalizing img fc with
  | nil => rfl
  | cons a L ih =>
    rw [List.foldl_cons, List.map_cons, List.foldl_cons]
    have hand := List.nodup_cons.mp hnd
    have ha0 := hagree a (List.mem_cons_self a L)
    have hagree' : ∀ p ∈ L,
        pixelColor (fillStep (img, fc) a).1 p.1 p.2 = pixelColor img0 p.1 p.2 := by
      intro p hp
      have hpa : ¬(a.1 = p.1 ∧ a.2 = p.2) :=
        fun hh => hand.1 ((Prod.ext hh.1 hh.2) ▸ hp)
      rw [pixel_fillStep_ne (img, fc) a p hpa]
      exact hagree p (List.mem_cons_of_mem a hp)
    have hmain := ih (fillStep (img, fc) a).1 (fillStep (img, fc) a).2 hand.2 hagree'
    have hsnd : (fillStep (img, fc) a).2 = alphaFoldStep fc (pixelColor img0 a.1 a.2) := by
      rw [snd_fillStep]
      unfold alphaFoldStep
      rw [ha0]
    calc (L.foldl fillStep (fillStep (img, fc) a)).2
        = (L.map (fun q => pixelColor img0 q.1 q.2)).foldl alphaFoldStep
            (fillStep (img, fc) a).2 := hmain
      _ = (L.map (fun q => pixelColor img0 q.1 q.2)).foldl alphaFoldStep
            (alphaFoldStep fc (pixelColor img0 a.1 a.2)) := by rw [hsnd]

/-- Folding `alphaFoldStep` sets the alpha to that of the last pixel with
positive alpha, when one exists. -/
theorem alphaFold_last (P : List QColor) (fc : QColor) :
    P.foldl alphaFoldStep fc =
      (match (P.filter (fun p => 0 < p.a)).getLast? with
      | some q => fc.setAlpha q.a
      | none => fc) := by
  induction P using List.reverseRecOn with
  | nil => rfl
  | append_singleton P a ih =>
    rw [List.foldl_append, List.foldl_cons, List.foldl_nil, List.filter_append, ih]
    by_cases ha : 0 < a.a
    · have hfa : List.filter (fun p => decide (0 < p.a)) [a] = [a] := by
        simp [List.filter, ha]
      rw [hfa, List.getLast?_concat]
      cases hlast : (P.filter (fun p => decide (0 < p.a))).getLast? with
      | none => simp [alphaFoldStep, ha]
      | some q => simp [alphaFoldStep, ha, QColor.setAlpha]
    · have hfa : List.filter (fun p => decide (0 < p.a)) [a] = [] := by
        simp [List.filter, ha]
      rw [hfa, List.append_nil]
      cases hlast : (P.filter (fun p => decide (0 < p.a))).getLast? with
      | none => simp [alphaFoldStep, ha]
      | some q => simp [alphaFoldStep, ha]

/-- Claim C9: when the raster recolouring runs with at least one
non-transparent pixel, the caller's colour object comes back with its
alpha channel set to the alpha of the last non-transparent pixel in
row-major (y-outer, x-inner) visit order, its colour channels unchanged. -/
theorem fill_mutates_fill_colour (img : Image) (c : QColor)
    (halive : ∃ p ∈ rowMajorPixels img, 0 < p.a) :
    ∃ plast, ((rowMajorPixels img).filter (fun p => 0 < p.a)).getLast? = some plast ∧
      (fill_pixmap_by_alpha img c).2 = QColor.setAlpha c plast.a := by
  have hsnd : (fill_pixmap_by_alpha img c).2 =
      (rowMajorPixels img).foldl alphaFoldStep c := by
    unfold fill_pixmap_by_alpha rowMajorPixels
    exact fold_snd_pixels _ img img c (nodup_coordsRowMajor _ _) (fun p _ => rfl)
  have hne : (rowMajorPixels img).filter (fun p => 0 < p.a) ≠ [] := by
    obtain ⟨p, hp, hpa⟩ := halive
    intro hemp
    have hmem : p ∈ (rowMajorPixels img).filter (fun p => 0 < p.a) :=
      List.mem_filter.mpr ⟨hp, by simpa using hpa⟩
    rw [hemp] at hmem
    simp at hmem
  obtain ⟨plast, hlast⟩ :=
    Option.isSome_iff_exists.mp (List.getLast?_isSome.mpr hne)
  refine ⟨plast, hlast, ?_⟩
  rw [hsnd, alphaFold_last, hlast]

/-- Claim C9 witness at a concrete 2 × 2 image. -/
theorem fill_mutates_fill_colour_witness :
    (∃ p ∈ rowMajorPixels [[⟨0, 0, 0, 0⟩, ⟨1, 1, 1, 5⟩], [⟨2, 2, 2, 9⟩, ⟨0, 0, 0, 0⟩]], 0 < p.a) ∧
    (∃ plast,
      ((rowMajorPixels [[⟨0, 0, 0, 0⟩, ⟨1, 1, 1, 5⟩], [⟨2, 2, 2, 9⟩, ⟨0, 0, 0, 0⟩]]).filter
        (fun p => 0 < p.a)).getLast? = some plast ∧
      (fill_pixmap_by_alpha [[⟨0, 0, 0, 0⟩, ⟨1, 1, 1, 5⟩], [⟨2, 2, 2, 9⟩, ⟨0, 0, 0, 0⟩]]
        ⟨10, 20, 30, 255⟩).2 = QColor.setAlpha ⟨10, 20, 30, 255⟩ plast.a) ∧
    (fill_pixmap_by_alpha [[⟨0, 0, 0, 0⟩, ⟨1, 1, 1, 5⟩], [⟨2, 2, 2, 9⟩, ⟨0, 0, 0, 0⟩]]
      ⟨10, 20, 30, 255⟩).2 = ⟨10, 20, 30, 9⟩ := by
  refine ⟨by decide, ?_, by decide⟩
  exact fill_mutates_fill_colour
    [[⟨0, 0, 0, 0⟩, ⟨1, 1, 1, 5⟩], [⟨2, 2, 2, 9⟩, ⟨0, 0, 0, 0⟩]] ⟨10, 20, 30, 255⟩ (by decide)

/-! ### Claims about the SVG pipeline -/

theorem imgH_mkGrid (w h : Nat) (f : Nat → Nat → QColor) : imgH (mkGrid w h f) = h := by
  simp [imgH, mkGrid]

theorem imgW_mkGrid (w h : Nat) (f : Nat → Nat → QColor) (hh : 0 < h) :
    imgW (mkGrid w h f) = w := by
  unfold imgW mkGrid
  cases h with
  | zero => omega
  | succ n => simp [List.range_succ_eq_map]

theorem pixelColor_mkGrid (w h : Nat) (f : Nat → Nat → QColor) (x y : Nat)
    (hx : x < w) (hy : y < h) : pixelColor (mkGrid w h f) x y = f x y := by
  unfold pixelColor mkGrid
  have hrow : ((List.range h).map (fun y => (List.range w).map (fun x => f x y)))[y]? =
      some ((List.range w).map (fun x => f x y)) := by
    rw [List.getElem?_map, List.getElem?_range hy]
    rfl
  rw [hrow]
  simp only [Option.getD_some]
  rw [List.getElem?_map, List.getElem?_range hx]
  rfl

/-- The SVG branch produces, pixel for pixel, the SourceIn composite of
the fill colour over the rendered buffer. -/
theorem svg_to_pixmap_eq_mkGrid (renderPixel : String → Nat → Nat → Nat → Nat → QColor)
    (filepath : String) (width height : Nat) (color : QColor) :
    svg_to_pixmap renderPixel filepath width height color =
      mkGrid width height (fun x y => sourceIn color (renderPixel filepath width height x y)) := by
  unfold svg_to_pixmap mkGrid
  simp [List.map_map, Function.comp]

theorem scaled_self (resample : Image → Nat → Nat → Image) (img : Image)
    (hw : 0 < imgW img) (hh : 0 < imgH img) :
    scaled resample img (imgW img) (imgH img) = img := by
  unfold scaled aspectFitSize
  have h1 : ¬(imgW img = 0 ∨ imgH img = 0) := by omega
  rw [if_neg h1]
  have h2 : imgH img * imgW img / imgH img = imgW img := Nat.mul_div_cancel_left _ hh
  simp [h2]

/-- Claim C7: for an icon resolving to an SVG file, the 30 × 30 bitmap
produced with no colour override is, pixel for pixel, the SourceIn
composite of opaque white over the rendered shape: opaque white where the
rendered shape is opaque, fully transparent where the shape is absent. -/
theorem svg_qpixmap_white_mask (renderPixel : String → Nat → Nat → Nat → Nat → QColor)
    (loadPixmap : String → Image) (resample : Image → Nat → Nat → Image)
    (root : String) (fs : String → Bool) (library icon : String)
    (kwargs : List (String × String)) (p : String)
    (hok : get_path root fs library icon kwargs = .ok p)
    (hsvg : pySuffix p = ".svg") :
    ∃ img, get_qpixmap renderPixel loadPixmap resample root fs library icon 30 30 none kwargs
        = .ok img ∧
      imgW img = 30 ∧ imgH img = 30 ∧
      ∀ x y, x < 30 → y < 30 →
        pixelColor img x y = sourceIn white (renderPixel p 30 30 x y) ∧
        ((renderPixel p 30 30 x y).a = 255 → pixelColor img x y = white) ∧
        ((renderPixel p 30 30 x y).a = 0 → pixelColor img x y = ⟨255, 255, 255, 0⟩) := by
  have hgrid := svg_to_pixmap_eq_mkGrid renderPixel p 30 30 white
  have hW : imgW (svg_to_pixmap renderPixel p 30 30 white) = 30 := by
    rw [hgrid]
    exact imgW_mkGrid _ _ _ (by omega)
  have hH : imgH (svg_to_pixmap renderPixel p 30 30 white) = 30 := by
    rw [hgrid]
    exact imgH_mkGrid _ _ _
  have hsc : scaled resample (svg_to_pixmap renderPixel p 30 30 white) 30 30 =
      svg_to_pixmap renderPixel p 30 30 white := by
    have hid := scaled_self resample (svg_to_pixmap renderPixel p 30 30 white)
      (by rw [hW]; omega) (by rw [hH]; omega)
    rw [hW, hH] at hid
    exact hid
  refine ⟨svg_to_pixmap renderPixel p 30 30 white, ?_, hW, hH, ?_⟩
  · have hq : get_qpixmap renderPixel loadPixmap resample root fs library icon 30 30 none kwargs
        = .ok (scaled resample (qpixmapFromPath renderPixel loadPixmap p 30 30 none) 30 30) := by
      unfold get_qpixmap
      rw [hok]
    have hqp : qpixmapFromPath renderPixel loadPixmap p 30 30 none
        = svg_to_pixmap renderPixel p 30 30 white := by
      unfold qpixmapFromPath
      rw [if_pos hsvg]
      rfl
    rw [hq, hqp, hsc]
  · intro x y hx hy
    have hpix : pixelColor (svg_to_pixmap renderPixel p 30 30 white) x y =
        sourceIn white (renderPixel p 30 30 x y) := by
      rw [hgrid]
      exact pixelColor_mkGrid _ _ _ x y hx hy
    refine ⟨hpix, ?_, ?_⟩
    · intro h255
      rw [hpix]
      unfold sourceIn white
      rw [h255]
      decide
    · intro h0
      rw [hpix]
      unfold sourceIn white
      rw [h0]
      decide

/-- Claim C7 witness: a concrete renderer opaque on the first column. -/
theorem svg_qpixmap_white_mask_witness :
    (get_path "R" (fun _ => true) "material" "add" [] = .ok "R/material/add/regular.svg") ∧
    (pySuffix "R/material/add/regular.svg" = ".svg") ∧
    (∃ img, get_qpixmap (fun _ _ _ x _ => ⟨0, 0, 0, if x = 0 then 255 else 0⟩)
        (fun _ => []) (fun i _ _ => i) "R" (fun _ => true) "material" "add" 30 30 none []
        = .ok img ∧
      imgW img = 30 ∧ imgH img = 30 ∧
      ∀ x y, x < 30 → y < 30 →
        pixelColor img x y =
          sourceIn white ((fun (_ : String) (_ _ x _ : Nat) =>
            (⟨0, 0, 0, if x = 0 then 255 else 0⟩ : QColor)) "R/material/add/regular.svg" 30 30 x y) ∧
        (((fun (_ : String) (_ _ x _ : Nat) =>
            (⟨0, 0, 0, if x = 0 then 255 else 0⟩ : QColor)) "R/material/add/regular.svg" 30 30 x y).a = 255 →
          pixelColor img x y = white) ∧
        (((fun (_ : String) (_ _ x _ : Nat) =>
            (⟨0, 0, 0, if x = 0 then 255 else 0⟩ : QColor)) "R/material/add/regular.svg" 30 30 x y).a = 0 →
          pixelColor img x y = ⟨255, 255, 255, 0⟩)) := by
  refine ⟨rfl, by decide, ?_⟩
  exact svg_qpixmap_white_mask (fun _ _ _ x _ => ⟨0, 0, 0, if x = 0 then 255 else 0⟩)
    (fun _ => []) (fun i _ _ => i) "R" (fun _ => true) "material" "add" []
    "R/material/add/regular.svg" rfl (by decide)

/-! ### Claim about registry immutability -/

/-- A pre-existing heap reference is untouched by the copy-and-update
sequence `get_path` performs. -/
theorem heapGet_after_copy_updates (h : DictHeap) (r : Nat) (hr : r < h.length)
    (dcopy d1 d2 : List (String × String)) :
    heapGet (heapSet (heapSet (h ++ [dcopy]) h.length d1) h.length d2) r = heapGet h r := by
  unfold heapGet heapSet
  have hne : h.length ≠ r := Ne.symm (Nat.ne_of_lt hr)
  rw [List.getElem?_set_ne hne, List.getElem?_set_ne hne]
  rw [List.getElem?_append, if_pos hr]

/-- Claim C8: the registry's dicts are never mutated: any heap reference
allocated before a call to `get_path`, `get_qpixmap` or
`get_library_names` holds the same dict afterwards — `get_path` updates
only the fresh copy of the library defaults it allocates. -/
theorem registry_never_mutated (h : DictHeap) (root : String) (fs : String → Bool)
    (library icon : String) (kwargs : List (String × String))
    (renderPixel : String → Nat → Nat → Nat → Nat → QColor) (loadPixmap : String → Image)
    (resample : Image → Nat → Nat → Image) (width height : Nat) (colour : Option QColor)
    (r : Nat) (hr : r < h.length) :
    heapGet (get_pathH h root fs library icon kwargs).2 r = heapGet h r ∧
    heapGet (get_qpixmapH renderPixel loadPixmap resample h root fs library icon
      width height colour kwargs).2 r = heapGet h r ∧
    (get_library_namesH h).2 = h := by
  have hpath : heapGet (get_pathH h root fs library icon kwargs).2 r = heapGet h r := by
    unfold get_pathH
    cases hlib : dget LIBRARIES_refs library with
    | none => rfl
    | some cfg =>
      simp only [heapAlloc]
      cases hfmt : formatTemplate cfg.path
          (heapGet (heapSet (heapSet (h ++ [heapGet h cfg.defaultsRef]) h.length
            (dictUpdates (heapGet (h ++ [heapGet h cfg.defaultsRef]) h.length) [("icon", icon)]))
            h.length
            (dictUpdates (heapGet (heapSet (h ++ [heapGet h cfg.defaultsRef]) h.length
              (dictUpdates (heapGet (h ++ [heapGet h cfg.defaultsRef]) h.length)
                [("icon", icon)])) h.length) kwargs)) h.length) with
      | error e => simp only [hfmt]; exact heapGet_after_copy_updates h r hr _ _ _
      | ok rel =>
        simp only [hfmt]
        by_cases hfs : fs (root ++ "/" ++ library ++ "/" ++ rel) = true
        · simp only [hfs, if_true]
          exact heapGet_after_copy_updates h r hr _ _ _
        · simp only [hfs, if_false]
          exact heapGet_after_copy_updates h r hr _ _ _
  refine ⟨hpath, ?_, rfl⟩
  unfold get_qpixmapH
  cases hres : get_pathH h root fs library icon kwargs with
  | mk e h' =>
    rw [hres] at hpath
    cases e with
    | error err => exact hpath
    | ok icon_path => exact hpath

/-- Claim C8 witness at the registry heap. -/
theorem registry_never_mutated_witness :
    (0 < registryHeap.length) ∧
    (heapGet (get_pathH registryHeap "R" (fun _ => true) "material" "add" []).2 0 =
        heapGet registryHeap 0 ∧
      heapGet (get_qpixmapH (fun _ _ _ _ _ => ⟨0, 0, 0, 0⟩) (fun _ => []) (fun i _ _ => i)
        registryHeap "R" (fun _ => true) "material" "add" 20 20 none []).2 0 =
        heapGet registryHeap 0 ∧
      (get_library_namesH registryHeap).2 = registryHeap) := by
  refine ⟨by decide, ?_⟩
  exact registry_never_mutated registryHeap "R" (fun _ => true) "material" "add" []
    (fun _ _ _ _ _ => ⟨0, 0, 0, 0⟩) (fun _ => []) (fun i _ _ => i) 20 20 none 0 (by decide)

/-! ### Concrete witnesses for the path-resolution claims -/

/-- Claim C3 witness at the unregistered library name `fontawesome`. -/
theorem get_path_unknown_library_valueerror_witness :
    dget LIBRARIES "fontawesome" = none ∧
    (get_path "R" (fun _ => true) "fontawesome" "x" [] =
      .error (.valueError ("Icon library " ++ "fontawesome" ++ " not found. Available libraries: "
        ++ pyReprStrList get_library_names)) ∧
    get_qpixmap (fun _ _ _ _ _ => ⟨0, 0, 0, 0⟩) (fun _ => []) (fun i _ _ => i)
        "R" (fun _ => true) "fontawesome" "x" 20 20 none [] =
      .error (.valueError ("Icon library " ++ "fontawesome" ++ " not found. Available libraries: "
        ++ pyReprStrList get_library_names)) ∧
    strEndsWith ("Icon library " ++ "fontawesome" ++ " not found. Available libraries: "
        ++ pyReprStrList get_library_names) (pyReprStrList get_library_names)) :=
  ⟨rfl, get_path_unknown_library_valueerror "R" (fun _ => true) "fontawesome" "x" []
    (fun _ _ _ _ _ => ⟨0, 0, 0, 0⟩) (fun _ => []) (fun i _ _ => i) 20 20 none rfl⟩

/-- Claim C4 witness at the registered library `material`. -/
theorem get_path_file_not_found_iff_witness :
    dget LIBRARIES "material" =
      some ⟨defaultPathTemplate, [("style", "regular"), ("ext", "svg")]⟩ ∧
    formatTemplate defaultPathTemplate
      (mergedSubs ⟨defaultPathTemplate, [("style", "regular"), ("ext", "svg")]⟩ "add" []) =
      .ok "add/regular.svg" ∧
    ((get_path "R" (fun _ => false) "material" "add" [] =
      if (fun _ => false : String → Bool) ("R" ++ "/" ++ "material" ++ "/" ++ "add/regular.svg") then
        .ok ("R" ++ "/" ++ "material" ++ "/" ++ "add/regular.svg")
      else
        .error (.fileNotFoundError ("No icon file found at: "
          ++ ("R" ++ "/" ++ "material" ++ "/" ++ "add/regular.svg")))) ∧
    (get_path "R" (fun _ => false) "material" "add" [] =
        .error (.fileNotFoundError ("No icon file found at: "
          ++ ("R" ++ "/" ++ "material" ++ "/" ++ "add/regular.svg")))
      ↔ (fun _ => false : String → Bool) ("R" ++ "/" ++ "material" ++ "/" ++ "add/regular.svg") = false)) :=
  ⟨rfl, rfl, get_path_file_not_found_iff "R" (fun _ => false) "material" "add" []
    ⟨defaultPathTemplate, [("style", "regular"), ("ext", "svg")]⟩ "add/regular.svg" rfl rfl⟩

/-- Claim C2 witness at the registered library `material` with a style
override. -/
theorem get_path_merge_format_join_witness :
    dget LIBRARIES "material" =
      some ⟨defaultPathTemplate, [("style", "regular"), ("ext", "svg")]⟩ ∧
    (([(("style" : String), ("bold" : String))].map Prod.fst).Nodup) ∧
    ((∀ k, dget (mergedSubs ⟨defaultPathTemplate, [("style", "regular"), ("ext", "svg")]⟩
        "add" [("style", "bold")]) k =
      dOr (dget [("style", "bold")] k)
        (if k = "icon" then some "add" else dget [("style", "regular"), ("ext", "svg")] k)) ∧
    (get_path "R" (fun _ => true) "material" "add" [("style", "bold")] =
      match formatTemplate defaultPathTemplate
        (mergedSubs ⟨defaultPathTemplate, [("style", "regular"), ("ext", "svg")]⟩
          "add" [("style", "bold")]) with
      | .error e => .error (.keyError e)
      | .ok rel =>
        if (fun _ => true : String → Bool) ("R" ++ "/" ++ "material" ++ "/" ++ rel) then
          .ok ("R" ++ "/" ++ "material" ++ "/" ++ rel)
        else
          .error (.fileNotFoundError ("No icon file found at: "
            ++ ("R" ++ "/" ++ "material" ++ "/" ++ rel))))) :=
  ⟨rfl, by decide, get_path_merge_format_join "R" (fun _ => true) "material" "add"
    [("style", "bold")] ⟨defaultPathTemplate, [("style", "regular"), ("ext", "svg")]⟩
    rfl (by decide)⟩

/-- Claim C10 witness: a `size` override is ignored by the template. -/
theorem get_path_ignores_unused_overrides_witness :
    dget LIBRARIES "material" =
      some ⟨defaultPathTemplate, [("style", "regular"), ("ext", "svg")]⟩ ∧
    ("size" ∉ templatePlaceholders defaultPathTemplate) ∧
    get_path "R" (fun _ => true) "material" "add" ([("style", "bold")] ++ [("size", "2")]) =
      get_path "R" (fun _ => true) "material" "add" [("style", "bold")] :=
  ⟨rfl, by decide, get_path_ignores_unused_overrides "R" (fun _ => true) "material" "add"
    [("style", "bold")] "size" "2" ⟨defaultPathTemplate, [("style", "regular"), ("ext", "svg")]⟩
    rfl (by decide)⟩

/-- Claim C6 witness: the default `svg` extension with no override. -/
theorem get_path_extension_witness :
    dget LIBRARIES "material" =
      some ⟨defaultPathTemplate, [("style", "regular"), ("ext", "svg")]⟩ ∧
    dget [(("style" : String), ("regular" : String)), ("ext", "svg")] "ext" = some "svg" ∧
    (([] : List (String × String)).map Prod.fst).Nodup ∧
    get_path "R" (fun _ => true) "material" "add" [] = .ok "R/material/add/regular.svg" ∧
    strEndsWith "R/material/add/regular.svg" ("." ++ (dget ([] : List (String × String)) "ext").getD "svg") :=
  ⟨rfl, rfl, by decide, rfl, get_path_extension "R" (fun _ => true) "material" "add" []
    ⟨defaultPathTemplate, [("style", "regular"), ("ext", "svg")]⟩ "R/material/add/regular.svg"
    "svg" rfl rfl (by decide) rfl⟩

end IconLib
